import Mathlib

/-!
Verification development for the quiz-tutoring application
(question store, answer records, quiz-session state machine, AI-response
post-processing).  Python sources are shallowly embedded: pure fragments
become Lean functions, the Streamlit session dictionary becomes an explicit
state record, SQLite queries become functions over row lists, and the
external effects (random sampling, the generative-AI calls) become function
parameters constrained by their documented contracts.
-/

namespace OcpTutor

/-! ## Label ordering

Python `sorted` on lists of option labels (strings) compares strings
lexicographically by code point.  We model that order with an executable
boolean comparison so that concrete evaluations reduce in the kernel. -/

def lexLe : List Char → List Char → Bool
  | [], _ => true
  | _ :: _, [] => false
  | a :: as, b :: bs =>
    if a.toNat < b.toNat then true
    else if b.toNat < a.toNat then false
    else lexLe as bs

def labelLe (a b : String) : Bool := lexLe a.toList b.toList

/-- `sorted(l)` for a list of labels. -/
def sortLabels (l : List String) : List String :=
  List.insertionSort (fun a b => labelLe a b = true) l

theorem char_eq_of_toNat_eq {a b : Char} (h : a.toNat = b.toNat) : a = b := by
  have h2 : a.val.toNat = b.val.toNat := h
  have h3 : a.val = b.val := by
    exact UInt32.eq_of_toBitVec_eq (by
      apply BitVec.eq_of_toNat_eq
      simpa [UInt32.toNat] using h2)
  exact Char.eq_of_val_eq h3

theorem lexLe_total : ∀ as bs : List Char, lexLe as bs = true ∨ lexLe bs as = true := by
  intro as
  induction as with
  | nil => intro bs; left; rfl
  | cons a as ih =>
    intro bs
    cases bs with
    | nil => right; rfl
    | cons b bs =>
      by_cases h1 : a.toNat < b.toNat
      · left; simp [lexLe, h1]
      · by_cases h2 : b.toNat < a.toNat
        · right; simp [lexLe, h2]
        · have := ih bs
          rcases this with h | h
          · left; simp [lexLe, h1, h2, h]
          · right; simp [lexLe, h1, h2, h]

theorem lexLe_antisymm : ∀ as bs : List Char,
    lexLe as bs = true → lexLe bs as = true → as = bs := by
  intro as
  induction as with
  | nil =>
    intro bs _ hba
    cases bs with
    | nil => rfl
    | cons b bs => simp [lexLe] at hba
  | cons a as ih =>
    intro bs hab hba
    cases bs with
    | nil => simp [lexLe] at hab
    | cons b bs =>
      by_cases h1 : a.toNat < b.toNat
      · simp [lexLe, h1, Nat.lt_asymm h1] at hba
      · by_cases h2 : b.toNat < a.toNat
        · simp [lexLe, h1, h2] at hab
        · have hab2 : lexLe as bs = true := by simpa [lexLe, h1, h2] using hab
          have hba2 : lexLe bs as = true := by
            simpa [lexLe, h1, h2] using hba
          have hac : a = b := char_eq_of_toNat_eq (Nat.le_antisymm (Nat.le_of_not_lt h2) (Nat.le_of_not_lt h1))
          rw [hac, ih bs hab2 hba2]

theorem lexLe_trans : ∀ as bs cs : List Char,
    lexLe as bs = true → lexLe bs cs = true → lexLe as cs = true := by
  intro as
  induction as with
  | nil => intro bs cs _ _; rfl
  | cons a as ih =>
    intro bs cs hab hbc
    cases bs with
    | nil => simp [lexLe] at hab
    | cons b bs =>
      cases cs with
      | nil => simp [lexLe] at hbc
      | cons c cs =>
        by_cases h1 : a.toNat < b.toNat
        · by_cases h3 : b.toNat < c.toNat
          · simp [lexLe, Nat.lt_trans h1 h3]
          · by_cases h4 : c.toNat < b.toNat
            · simp [lexLe, h3, h4] at hbc
            · have hbc2 : b.toNat = c.toNat := Nat.le_antisymm (Nat.le_of_not_lt h4) (Nat.le_of_not_lt h3)
              simp [lexLe, hbc2 ▸ h1]
        · by_cases h2 : b.toNat < a.toNat
          · simp [lexLe, h1, h2] at hab
          · have hba : a.toNat = b.toNat := Nat.le_antisymm (Nat.le_of_not_lt h2) (Nat.le_of_not_lt h1)
            by_cases h3 : b.toNat < c.toNat
            · simp [lexLe, hba ▸ h3]
            · by_cases h4 : c.toNat < b.toNat
              · simp [lexLe, h3, h4] at hbc
              · have hab2 : lexLe as bs = true := by simpa [lexLe, h1, h2] using hab
                have hbc2 : lexLe bs cs = true := by simpa [lexLe, h3, h4] using hbc
                have hac1 : ¬ a.toNat < c.toNat := by omega
                have hac2 : ¬ c.toNat < a.toNat := by omega
                simp [lexLe, hac1, hac2, ih bs cs hab2 hbc2]

instance : IsTotal String (fun a b => labelLe a b = true) :=
  ⟨fun a b => lexLe_total a.toList b.toList⟩

instance : IsTrans String (fun a b => labelLe a b = true) :=
  ⟨fun a b c => lexLe_trans a.toList b.toList c.toList⟩

instance : IsAntisymm String (fun a b => labelLe a b = true) := by
  constructor
  intro a b hab hba
  have := lexLe_antisymm a.toList b.toList hab hba
  have hdata : a.data = b.data := this
  exact congrArg String.mk hdata

theorem sortLabels_perm (l : List String) : (sortLabels l).Perm l :=
  List.perm_insertionSort _ l

theorem sortLabels_eq_iff_perm (l₁ l₂ : List String) :
    sortLabels l₁ = sortLabels l₂ ↔ l₁.Perm l₂ := by
  constructor
  · intro h
    exact ((sortLabels_perm l₁).symm.trans (h ▸ sortLabels_perm l₂)).symm.symm
  · intro h
    exact List.eq_of_perm_of_sorted
      ((sortLabels_perm l₁).trans (h.trans (sortLabels_perm l₂).symm))
      (List.sorted_insertionSort _ l₁) (List.sorted_insertionSort _ l₂)

theorem sortLabels_nil_iff (l : List String) : sortLabels l = [] ↔ l = [] := by
  constructor
  · intro h
    have := sortLabels_perm l
    rw [h] at this
    exact this.symm.eq_nil
  · intro h; rw [h]; rfl

/-! ## Grading (`ui_components.display_results`, lines 176-183)

```python
user_answer = sorted(st.session_state.user_answers.get(i, []))
correct_answer = sorted(json.loads(question['answer']))
is_correct = (user_answer == correct_answer and correct_answer != [])
```
-/

def gradeIsCorrect (chosen stored : List String) : Bool :=
  (sortLabels chosen == sortLabels stored) && !(sortLabels stored == [])

/-! ## Option selection (`ui_components._handle_choice_selection`, lines 110-121)

```python
if answer_count > 1:
    if choice_key in user_answers: user_answers.remove(choice_key)
    else: user_answers.append(choice_key)
else:
    user_answers = [choice_key]
```
`list.remove` drops the first occurrence, `append` adds at the end. -/

def handleChoiceSelection (choiceKey : String) (answerCount : Nat)
    (userAnswers : List String) : List String :=
  if answerCount > 1 then
    if choiceKey ∈ userAnswers then userAnswers.erase choiceKey
    else userAnswers ++ [choiceKey]
  else [choiceKey]

/-- `ui_components.display_question`, line 144:
`answer_count = len(json.loads(question['answer'])) or 1` — an empty stored
answer list yields count 1 (Python `or` on a falsy `0`). -/
def answerCountOf (storedAnswer : List String) : Nat :=
  if storedAnswer.length = 0 then 1 else storedAnswer.length

/-! ## C1 and C4 theorems -/

/-- Claim C1: grading marks a question correct iff the chosen-label set equals the
stored correct-answer set order-independently and the stored set is
non-empty; with an empty stored answer key the question is never correct,
even for an empty submission.  (Chosen and stored label lists are
duplicate-free in every session, which the hypotheses record.) -/
theorem grade_correct_iff_set_eq_and_nonempty
    (chosen stored : List String)
    (hc : chosen.Nodup) (hs : stored.Nodup) :
    gradeIsCorrect chosen stored = true ↔
      (chosen.toFinset = stored.toFinset ∧ stored ≠ []) := by
  unfold gradeIsCorrect
  rw [Bool.and_eq_true, beq_iff_eq, Bool.not_eq_true', beq_eq_false_iff_ne]
  constructor
  · rintro ⟨h1, h2⟩
    refine ⟨?_, ?_⟩
    · exact List.toFinset_eq_of_perm _ _ ((sortLabels_eq_iff_perm _ _).mp h1)
    · intro hnil
      exact h2 (by rw [hnil]; rfl)
  · rintro ⟨h1, h2⟩
    refine ⟨?_, ?_⟩
    · refine (sortLabels_eq_iff_perm _ _).mpr ?_
      refine (List.perm_ext_iff_of_nodup hc hs).mpr ?_
      intro a
      constructor
      · intro ha
        have : a ∈ stored.toFinset := h1 ▸ List.mem_toFinset.mpr ha
        exact List.mem_toFinset.mp this
      · intro ha
        have : a ∈ chosen.toFinset := h1.symm ▸ List.mem_toFinset.mpr ha
        exact List.mem_toFinset.mp this
    · intro hnil
      exact h2 ((sortLabels_nil_iff stored).mp hnil)

/-- Witness for C1 at concrete inputs: stored `["B","D"]`, chosen `["D","B"]`
is graded correct. -/
theorem grade_correct_iff_set_eq_and_nonempty_witness :
    gradeIsCorrect ["D", "B"] ["B", "D"] = true :=
  (grade_correct_iff_set_eq_and_nonempty ["D", "B"] ["B", "D"]
    (by decide) (by decide)).mpr ⟨by decide, by decide⟩

/-- Claim C4: with a stored correct-answer set of size 1 or 0 (the malformed case)
selection replaces the chosen set with exactly the clicked label; with size
greater than 1 selection appends the label when absent and removes it when
present, and two consecutive selections of the same label restore the chosen
set, as a set, to its prior value (session chosen sets are duplicate-free). -/
theorem select_single_and_multi_semantics
    (stored chosen : List String) (label : String) (hnd : chosen.Nodup) :
    (stored.length ≤ 1 →
      handleChoiceSelection label (answerCountOf stored) chosen = [label])
    ∧ (1 < stored.length →
        (label ∉ chosen →
          handleChoiceSelection label (answerCountOf stored) chosen = chosen ++ [label])
        ∧ (label ∈ chosen →
          handleChoiceSelection label (answerCountOf stored) chosen = chosen.erase label)
        ∧ (handleChoiceSelection label (answerCountOf stored)
            (handleChoiceSelection label (answerCountOf stored) chosen)).toFinset
            = chosen.toFinset) := by
  have hcount : stored.length ≤ 1 → answerCountOf stored = 1 := by
    intro h
    unfold answerCountOf
    have : stored.length = 0 ∨ stored.length = 1 := by omega
    rcases this with h0 | h0 <;> simp [h0]
  constructor
  · intro h
    simp [handleChoiceSelection, hcount h]
  · intro h
    have hcount2 : answerCountOf stored = stored.length := by
      unfold answerCountOf
      have hne : ¬ stored.length = 0 := by omega
      simp [hne]
    have hgt : answerCountOf stored > 1 := by omega
    refine ⟨?_, ?_, ?_⟩
    · intro hmem
      simp [handleChoiceSelection, hgt, hmem]
    · intro hmem
      simp [handleChoiceSelection, hgt, hmem]
    · by_cases hmem : label ∈ chosen
      · have h1 : handleChoiceSelection label (answerCountOf stored) chosen
            = chosen.erase label := by simp [handleChoiceSelection, hgt, hmem]
        have hnotmem : label ∉ chosen.erase label := hnd.not_mem_erase
        have h2 : handleChoiceSelection label (answerCountOf stored) (chosen.erase label)
            = chosen.erase label ++ [label] := by
          simp [handleChoiceSelection, hgt, hnotmem]
        rw [h1, h2]
        ext a
        simp only [List.mem_toFinset, List.mem_append, List.mem_singleton]
        constructor
        · rintro (ha | rfl)
          · exact List.erase_subset _ _ ha
          · exact hmem
        · intro ha
          by_cases hal : a = label
          · right; exact hal
          · left; exact (List.mem_erase_of_ne hal).mpr ha
      · have h1 : handleChoiceSelection label (answerCountOf stored) chosen
            = chosen ++ [label] := by simp [handleChoiceSelection, hgt, hmem]
        have hmem2 : label ∈ chosen ++ [label] := by simp
        have h2 : handleChoiceSelection label (answerCountOf stored) (chosen ++ [label])
            = (chosen ++ [label]).erase label := by
          simp [handleChoiceSelection, hgt, hmem2]
        rw [h1, h2, List.erase_append_right _ hmem]
        simp

/-- Witness for C4 at concrete inputs: multi-select (stored size 2) toggles,
single-select (stored size 1) replaces. -/
theorem select_single_and_multi_semantics_witness :
    (handleChoiceSelection "C" (answerCountOf ["A", "B"]) ["A"] = ["A", "C"])
    ∧ (handleChoiceSelection "C" (answerCountOf ["A"]) ["A"] = ["C"]) :=
  ⟨((select_single_and_multi_semantics ["A", "B"] ["A"] "C" (by decide)).2
      (by decide)).1 (by decide),
   (select_single_and_multi_semantics ["A"] ["A"] "C" (by decide)).1 (by decide)⟩

/-! ## Data model: questions, answer records, databases

`original_questions` and `modified_questions` rows are modelled with their
JSON columns already decoded (`options`, `answer`); `user_answers` rows carry
an abstract `Nat` timestamp for `solved_at` (only its order matters). -/

inductive QType where
  | original
  | modified
deriving DecidableEq, Repr

structure QRef where
  id : Nat
  qtype : QType
deriving DecidableEq, Repr

structure Question where
  id : Nat
  question : String
  options : List (String × String)
  answer : List String
  difficulty : String
deriving DecidableEq, Repr

structure QuizDB where
  originals : List Question
  modifieds : List Question
deriving DecidableEq, Repr

structure AnswerRecord where
  username : String
  question_id : Nat
  question_type : QType
  user_choice : List String
  is_correct : Bool
  solved_at : Nat
deriving DecidableEq, Repr

/-- A `user_answers` row as inserted by `db_utils.save_user_answer`
(lines 227-235); `solved_at` defaults server-side, so it is not part of the
insert. -/
structure SavedAnswer where
  username : String
  question_id : Nat
  question_type : QType
  user_choice : List String
  is_correct : Bool
deriving DecidableEq, Repr

/-- `db_utils.get_question_by_id` (lines 131-137):
`SELECT * FROM <table> WHERE id = ?` with `fetchone`. -/
def get_question_by_id (db : QuizDB) (qid : Nat) (qtype : QType) : Option Question :=
  match qtype with
  | .original => db.originals.find? (fun q => q.id == qid)
  | .modified => db.modifieds.find? (fun q => q.id == qid)

def sortIdsAsc (ids : List Nat) : List Nat :=
  List.insertionSort (fun a b : Nat => a ≤ b) ids

/-- `db_utils.get_question_ids_by_difficulty` (lines 111-119):
`SELECT id FROM original_questions [WHERE difficulty = ?] ORDER BY id ASC`. -/
def get_question_ids_by_difficulty (db : QuizDB) (difficulty : String) : List Nat :=
  if difficulty == "모든 난이도" then
    sortIdsAsc (db.originals.map (fun q => q.id))
  else
    sortIdsAsc ((db.originals.filter (fun q => q.difficulty == difficulty)).map
      (fun q => q.id))

/-- `db_utils.get_all_question_ids('original')` (lines 121-124). -/
def get_all_original_question_ids (db : QuizDB) : List Nat :=
  get_question_ids_by_difficulty db "모든 난이도"

/-- `db_utils.get_wrong_answers` (lines 237-256).  The SQL filters
`is_correct = 0 AND username = ?` **before** grouping by
`(question_id, question_type)` (and joins against the union of the two
question tables), then orders groups by `MAX(solved_at) DESC`.  The result is
modelled as the ordered list of `(question id, variant)` group keys. -/
def get_wrong_answers (db : QuizDB) (records : List AnswerRecord)
    (username : String) : List (Nat × QType) :=
  let filtered := records.filter (fun r =>
    r.is_correct == false && r.username == username
      && (get_question_by_id db r.question_id r.question_type).isSome)
  let pairs := (filtered.map (fun r => (r.question_id, r.question_type))).dedup
  let maxSolvedAt := fun (p : Nat × QType) =>
    ((filtered.filter (fun r => (r.question_id, r.question_type) == p)).map
      (fun r => r.solved_at)).foldr max 0
  @List.insertionSort (Nat × QType) (fun p q => maxSolvedAt q ≤ maxSolvedAt p)
    (fun p q => Nat.decLe (maxSolvedAt q) (maxSolvedAt p)) pairs

/-! ## Session state machine (`app.py`) -/

/-- The `st.session_state` fields owned by the quiz flow
(`app.initialize_session_state`, lines 74-81): `user_answers` is the Python
dict mapping question index to the chosen-label list. -/
structure SessionState where
  questions_to_solve : List QRef
  user_answers : List (Nat × List String)
  current_question_index : Nat
  current_view : String
deriving DecidableEq, Repr

/-- `st.session_state.user_answers.get(i, [])`. -/
def dictGet (d : List (Nat × List String)) (i : Nat) : List String :=
  ((d.find? (fun kv => kv.1 == i)).map (fun kv => kv.2)).getD []

inductive QuizMode where
  | randomOriginal (difficulty : String) (num : Nat)
  | randomModified (num : Nat)
  | singleById (qid : Nat)
deriving DecidableEq, Repr

/-- `app.start_quiz_session` (lines 83-115).  External effects become
parameters: `shuffle` models `random.sample` (the sample is the prefix of a
permutation of the pool), and `gen` models
`generate_modified_question` + `save_modified_question` for one original id
(`none` when generation fails or the AI reports an error, `some newId` when
the variant was saved).  The function returns the new session state plus the
`questions_loaded` flag; on success `current_view` becomes `"quiz"`. -/
def start_quiz_session (shuffle : List Nat → List Nat) (gen : Nat → Option Nat)
    (db : QuizDB) (mode : QuizMode) (prev : SessionState) : SessionState × Bool :=
  -- lines 84-86: the three session fields are reset before any branching
  let cleared : SessionState :=
    { questions_to_solve := [], user_answers := [], current_question_index := 0,
      current_view := prev.current_view }
  match mode with
  | .randomOriginal difficulty num =>
    let all_ids := get_question_ids_by_difficulty db difficulty
    if all_ids.isEmpty then (cleared, false)
    else
      let selected_ids := (shuffle all_ids).take (min num all_ids.length)
      ({ cleared with
          questions_to_solve := selected_ids.map (fun i => ⟨i, .original⟩),
          current_view := "quiz" }, true)
  | .randomModified num =>
    let original_ids := get_all_original_question_ids db
    if original_ids.isEmpty then (cleared, false)
    else
      let s_ids := (shuffle original_ids).take (min num original_ids.length)
      let new_ids := s_ids.filterMap gen
      if new_ids.isEmpty then (cleared, false)
      else
        ({ cleared with
            questions_to_solve := new_ids.map (fun i => ⟨i, .modified⟩),
            current_view := "quiz" }, true)
  | .singleById qid =>
    match get_question_by_id db qid .original with
    | some _ =>
        ({ cleared with
            questions_to_solve := [⟨qid, .original⟩],
            current_view := "quiz" }, true)
    | none => (cleared, false)

/-- `ui_components.display_results` (lines 170-204), restricted to its
persistent effect: the `user_answers` rows inserted during one rendering of
the results view.  A question that can no longer be fetched is skipped with a
warning (line 172-174); a correctly graded question only bumps
`correct_count` (line 201-202); an incorrectly graded question is saved via
`save_user_answer(..., user_answer, is_correct=False)` (line 204), where
`user_answer` is the sorted chosen list. -/
def display_results_saved (db : QuizDB) (username : String)
    (questions_to_solve : List QRef) (user_answers : List (Nat × List String)) :
    List SavedAnswer :=
  (questions_to_solve.enum).filterMap (fun p =>
    match get_question_by_id db p.2.id p.2.qtype with
    | none => none
    | some q =>
      if gradeIsCorrect (dictGet user_answers p.1) q.answer then none
      else some ⟨username, p.2.id, p.2.qtype, sortLabels (dictGet user_answers p.1), false⟩)

/-! ## C2, C3: answer-record persistence and the wrong-answer listing -/

/-- A one-question database shared by the concrete evaluations below. -/
def sampleDB : QuizDB :=
  { originals := [⟨1, "q1", [("A", "a"), ("B", "b")], ["A"], "보통"⟩],
    modifieds := [] }

/-- User `u` answered question 1 wrong at time 1 and right at time 2. -/
def wrongThenRightRecords : List AnswerRecord :=
  [⟨"u", 1, .original, ["B"], false, 1⟩,
   ⟨"u", 1, .original, ["A"], true, 2⟩]

/-- Claim C2: evaluation of `get_wrong_answers` at the claim's own scenario.  The
query keeps any `(question id, variant)` pair with at least one incorrect
record — `WHERE ua.is_correct = 0` runs before `GROUP BY` — so question 1
still appears even though its most recent record (time 2) is correct,
contradicting the claimed latest-record semantics. -/
theorem wrong_answers_keeps_later_corrected_question :
    get_wrong_answers sampleDB wrongThenRightRecords "u" = [(1, QType.original)]
    ∧ (wrongThenRightRecords.filter (fun r => r.solved_at == 2)).all
        (fun r => r.is_correct) = true := by
  constructor
  · rfl
  · rfl

/-- Claim C3: evaluation of `display_results_saved` at a correctly answered
question.  The results view inserts **no** answer record for a correct
answer (`save_user_answer` is called only in the `else` branch, always with
`is_correct=False`), while an incorrect answer of the same question does
produce a record; the claimed one-record-per-graded-question behaviour fails
on the correct outcome. -/
theorem results_persist_only_incorrect_answers :
    display_results_saved sampleDB "u" [⟨1, .original⟩] [(0, ["A"])] = []
    ∧ display_results_saved sampleDB "u" [⟨1, .original⟩] [(0, ["B"])]
        = [⟨"u", 1, .original, ["B"], false⟩] := by
  constructor
  · rfl
  · rfl

/-! ## C6: random original-question quiz start -/

theorem pool_nodup_of_ids_nodup (db : QuizDB) (difficulty : String)
    (h : (db.originals.map (fun q => q.id)).Nodup) :
    (get_question_ids_by_difficulty db difficulty).Nodup := by
  unfold get_question_ids_by_difficulty
  split
  · exact ((List.perm_insertionSort _ _).nodup_iff).mpr h
  · refine ((List.perm_insertionSort _ _).nodup_iff).mpr ?_
    exact List.Nodup.sublist
      (List.Sublist.map _ (List.filter_sublist db.originals)) h

/-- Claim C6: with `shuffle` ranging over permutations (the contract of
`random.sample`), starting a random original-question quiz fails exactly when
the difficulty-filtered pool is empty; otherwise it succeeds with a question
list of length `min requested pool-size` whose entries are original-variant
ids drawn from the pool, without replacement whenever the stored ids are
distinct. -/
theorem random_original_quiz_sampling
    (shuffle : List Nat → List Nat) (gen : Nat → Option Nat) (db : QuizDB)
    (difficulty : String) (num : Nat) (prev : SessionState)
    (hsh : ∀ l, (shuffle l).Perm l) :
    (get_question_ids_by_difficulty db difficulty = [] →
      (start_quiz_session shuffle gen db (.randomOriginal difficulty num) prev).2 = false)
    ∧ (get_question_ids_by_difficulty db difficulty ≠ [] →
        (start_quiz_session shuffle gen db (.randomOriginal difficulty num) prev).2 = true
        ∧ (start_quiz_session shuffle gen db (.randomOriginal difficulty num)
            prev).1.questions_to_solve.length
            = min num (get_question_ids_by_difficulty db difficulty).length
        ∧ (∀ q ∈ (start_quiz_session shuffle gen db (.randomOriginal difficulty num)
            prev).1.questions_to_solve,
            q.qtype = .original ∧ q.id ∈ get_question_ids_by_difficulty db difficulty)
        ∧ ((db.originals.map (fun q => q.id)).Nodup →
            ((start_quiz_session shuffle gen db (.randomOriginal difficulty num)
              prev).1.questions_to_solve.map (fun q => q.id)).Nodup)) := by
  set pool := get_question_ids_by_difficulty db difficulty with hpool
  constructor
  · intro hempty
    simp [start_quiz_session, ← hpool, hempty]
  · intro hne
    have hnemp : pool.isEmpty = false := by
      cases hp : pool with
      | nil => exact absurd hp hne
      | cons a t => rfl
    have hrun : start_quiz_session shuffle gen db (.randomOriginal difficulty num) prev
        = ({ questions_to_solve := ((shuffle pool).take (min num pool.length)).map
              (fun i => ⟨i, .original⟩),
             user_answers := [], current_question_index := 0,
             current_view := "quiz" }, true) := by
      simp [start_quiz_session, ← hpool, hnemp]
    rw [hrun]
    have hlen : (shuffle pool).length = pool.length := (hsh pool).length_eq
    refine ⟨rfl, ?_, ?_, ?_⟩
    · simp [List.length_take, hlen]
    · intro q hq
      simp only [List.mem_map] at hq
      obtain ⟨i, hi, rfl⟩ := hq
      have hmem : i ∈ shuffle pool := (List.take_sublist _ _).subset hi
      exact ⟨rfl, (hsh pool).subset hmem⟩
    · intro hnd
      have h1 : (shuffle pool).Nodup := ((hsh pool).nodup_iff).mpr
        (pool_nodup_of_ids_nodup db difficulty hnd)
      have h2 : ((shuffle pool).take (min num pool.length)).Nodup :=
        List.Nodup.sublist (List.take_sublist _ _) h1
      have h3 : (((shuffle pool).take (min num pool.length)).map
          (fun i => (⟨i, QType.original⟩ : QRef))).map (fun q => q.id)
          = (shuffle pool).take (min num pool.length) := by
        rw [List.map_map]
        exact List.map_id _
      rw [h3]
      exact h2

/-- Witness for C6 at concrete inputs: identity shuffle, one stored
question, five requested — the session holds exactly one question. -/
theorem random_original_quiz_sampling_witness :
    (start_quiz_session (fun l => l) (fun _ => none) sampleDB
      (.randomOriginal "모든 난이도" 5)
      ⟨[], [], 0, "home"⟩).1.questions_to_solve.length = 1 :=
  (((random_original_quiz_sampling (fun l => l) (fun _ => none) sampleDB
      "모든 난이도" 5 ⟨[], [], 0, "home"⟩
      (fun l => List.Perm.refl l)).2 (by decide)).2).1

/-! ## C10: starting a quiz discards the previous session state -/

/-- Claim C10: `start_quiz_session` resets the question list, the chosen-label
dictionary and the cursor before validating the new list, so (i) the
answers dictionary and cursor of the result are always cleared, (ii) on any
failed start the resulting state is exactly the cleared state (only
`current_view` survives from the previous session), and (iii) the result
never depends on the previous question list, answers or cursor. -/
theorem start_quiz_clears_previous_state
    (shuffle : List Nat → List Nat) (gen : Nat → Option Nat)
    (db : QuizDB) (mode : QuizMode) :
    (∀ prev, (start_quiz_session shuffle gen db mode prev).1.user_answers = []
      ∧ (start_quiz_session shuffle gen db mode prev).1.current_question_index = 0)
    ∧ (∀ prev, (start_quiz_session shuffle gen db mode prev).2 = false →
        (start_quiz_session shuffle gen db mode prev).1
          = ⟨[], [], 0, prev.current_view⟩)
    ∧ (∀ p q : SessionState, p.current_view = q.current_view →
        start_quiz_session shuffle gen db mode p
          = start_quiz_session shuffle gen db mode q) := by
  refine ⟨?_, ?_, ?_⟩
  · intro prev
    cases mode with
    | randomOriginal difficulty num =>
      by_cases h : (get_question_ids_by_difficulty db difficulty).isEmpty
        <;> simp [start_quiz_session, h]
    | randomModified num =>
      by_cases h1 : (get_all_original_question_ids db).isEmpty
      · simp [start_quiz_session, h1]
      · by_cases h2 : ((((shuffle (get_all_original_question_ids db)).take
            (min num (get_all_original_question_ids db).length)).filterMap gen)).isEmpty
          <;> simp [start_quiz_session, h1, h2]
    | singleById qid =>
      cases h : get_question_by_id db qid .original
        <;> simp [start_quiz_session, h]
  · intro prev hfail
    cases mode with
    | randomOriginal difficulty num =>
      by_cases h : (get_question_ids_by_difficulty db difficulty).isEmpty
      · simp [start_quiz_session, h]
      · simp [start_quiz_session, h] at hfail
    | randomModified num =>
      by_cases h1 : (get_all_original_question_ids db).isEmpty
      · simp [start_quiz_session, h1]
      · by_cases h2 : ((((shuffle (get_all_original_question_ids db)).take
            (min num (get_all_original_question_ids db).length)).filterMap gen)).isEmpty
        · simp [start_quiz_session, h1, h2]
        · simp [start_quiz_session, h1, h2] at hfail
    | singleById qid =>
      cases h : get_question_by_id db qid .original with
      | none => simp [start_quiz_session, h]
      | some q => simp [start_quiz_session, h] at hfail
  · intro p q hview
    cases mode <;> simp [start_quiz_session, hview]

/-- Witness for C10 at concrete inputs: a failing start (empty database)
leaves the session cleared, not the previous state. -/
theorem start_quiz_clears_previous_state_witness :
    (start_quiz_session (fun l => l) (fun _ => none) ⟨[], []⟩
      (.randomOriginal "모든 난이도" 3)
      ⟨[⟨1, .original⟩], [(0, ["A"])], 5, "results"⟩).1
      = ⟨[], [], 0, "results"⟩ :=
  (start_quiz_clears_previous_state (fun l => l) (fun _ => none) ⟨[], []⟩
    (.randomOriginal "모든 난이도" 3)).2.1
    ⟨[⟨1, .original⟩], [(0, ["A"])], 5, "results"⟩ (by decide)

/-! ## JSON values and `json.loads`

`json.loads` is modelled by an executable recursive-descent parser over the
JSON grammar (objects, arrays, strings with escapes, numbers, literals).
Integer literals decode to `num`; literals with a fraction or exponent
decode to `fnum m e` standing for the float `m * 10^e`.  Objects keep
insertion order with duplicate keys collapsed (dict semantics).  Python
additionally accepts `NaN`/`Infinity` literals, which never occur in this
application's data and are not modelled. -/

inductive Json where
  | null
  | jbool (b : Bool)
  | num (n : Int)
  | fnum (m : Int) (e : Int)
  | str (s : String)
  | arr (xs : List Json)
  | obj (kvs : List (String × Json))

def isJsonWs (c : Char) : Bool := [32, 9, 10, 13].contains c.toNat

def isDigitChar (c : Char) : Bool := 48 ≤ c.toNat && c.toNat ≤ 57

def digitsToNat (ds : List Char) : Nat :=
  ds.foldl (fun acc c => acc * 10 + (c.toNat - 48)) 0

/-- Hex-digit ranges as (low, high, value of low) triples. -/
def hexRanges : List (Nat × Nat × Nat) := [(48, 57, 0), (97, 102, 10), (65, 70, 10)]

def hexDigitVal (c : Char) : Option Nat :=
  (hexRanges.find? (fun t => t.1 ≤ c.toNat && c.toNat ≤ t.2.1)).map
    (fun t => t.2.2 + (c.toNat - t.1))

/-- Two-character string escapes (code-point table). -/
def escapeTable : List (Char × Nat) :=
  [('"', 34), ('\\', 92), ('/', 47), ('b', 8), ('f', 12), ('n', 10), ('r', 13), ('t', 9)]

def escapeChar (c : Char) : Option Char :=
  (escapeTable.find? (fun pr => pr.1 == c)).map (fun pr => Char.ofNat pr.2)

/-- Body of a JSON string after the opening quote: returns the decoded
characters and the input after the closing quote.  Raw control characters
are rejected (strict mode); `\uXXXX` decodes a single code unit. -/
def parseStrChars : List Char → Option (List Char × List Char)
  | [] => none
  | '"' :: rest => some ([], rest)
  | '\\' :: 'u' :: h1 :: h2 :: h3 :: h4 :: rest =>
    (match hexDigitVal h1, hexDigitVal h2, hexDigitVal h3, hexDigitVal h4 with
     | some a, some b, some c, some d =>
       (parseStrChars rest).map (fun pr =>
         (Char.ofNat (((a * 16 + b) * 16 + c) * 16 + d) :: pr.1, pr.2))
     | _, _, _, _ => none)
  | '\\' :: e :: rest =>
    (match escapeChar e with
     | some ch => (parseStrChars rest).map (fun pr => (ch :: pr.1, pr.2))
     | none => none)
  | c :: rest =>
    if c.toNat < 32 then none
    else (parseStrChars rest).map (fun pr => (c :: pr.1, pr.2))

def parseExponentPart (l : List Char) : Option (Int × List Char) :=
  match l with
  | c :: t =>
    if c == 'e' || c == 'E' then
      let sp : Bool × List Char := match t with
        | '+' :: u => (false, u)
        | '-' :: u => (true, u)
        | _ => (false, t)
      let ds := sp.2.takeWhile isDigitChar
      let r := sp.2.dropWhile isDigitChar
      if ds.isEmpty then none
      else some ((if sp.1 then -(Int.ofNat (digitsToNat ds))
                  else Int.ofNat (digitsToNat ds)), r)
    else none
  | [] => none

def parseNumberToken (l : List Char) : Option (Json × List Char) :=
  let np : Bool × List Char := match l with
    | '-' :: t => (true, t)
    | _ => (false, l)
  let intDs := np.2.takeWhile isDigitChar
  let l2 := np.2.dropWhile isDigitChar
  if intDs.isEmpty then none
  else if intDs.length > 1 && intDs.headD '0' == '0' then none
  else
    let intVal : Int := if np.1 then -(Int.ofNat (digitsToNat intDs))
                        else Int.ofNat (digitsToNat intDs)
    let fracInfo : Option (List Char × List Char) := match l2 with
      | '.' :: t =>
        let ds := t.takeWhile isDigitChar
        if ds.isEmpty then none else some (ds, t.dropWhile isDigitChar)
      | _ => none
    match fracInfo with
    | some (fracDs, l3) =>
      let mAbs := Int.ofNat (digitsToNat (intDs ++ fracDs))
      let m := if np.1 then -mAbs else mAbs
      (match parseExponentPart l3 with
       | some (e, l4) => some (.fnum m (e - Int.ofNat fracDs.length), l4)
       | none => some (.fnum m (-(Int.ofNat fracDs.length)), l3))
    | none =>
      match parseExponentPart l2 with
      | some (e, l4) => some (.fnum intVal e, l4)
      | none => some (.num intVal, l2)

/-- Dict insertion: replacing an existing key keeps its position. -/
def objUpsert (kvs : List (String × Json)) (k : String) (v : Json) :
    List (String × Json) :=
  if kvs.any (fun kv => kv.1 == k) then
    kvs.map (fun kv => if kv.1 == k then (k, v) else kv)
  else kvs ++ [(k, v)]

mutual

def parseVal : Nat → List Char → Option (Json × List Char)
  | 0, _ => none
  | fuel + 1, l =>
    let l1 := l.dropWhile isJsonWs
    match l1 with
    | [] => none
    | '"' :: rest => (parseStrChars rest).map (fun pr => (Json.str (String.mk pr.1), pr.2))
    | '{' :: rest => parseObjRest fuel (rest.dropWhile isJsonWs) [] true
    | '[' :: rest => parseArrRest fuel (rest.dropWhile isJsonWs) [] true
    | _ =>
      if ['t', 'r', 'u', 'e'].isPrefixOf l1 then some (Json.jbool true, l1.drop 4)
      else if ['f', 'a', 'l', 's', 'e'].isPrefixOf l1 then some (Json.jbool false, l1.drop 5)
      else if ['n', 'u', 'l', 'l'].isPrefixOf l1 then some (Json.null, l1.drop 4)
      else parseNumberToken l1

def parseObjRest : Nat → List Char → List (String × Json) → Bool →
    Option (Json × List Char)
  | 0, _, _, _ => none
  | fuel + 1, l, acc, first =>
    match l with
    | '}' :: rest => if first then some (Json.obj acc, rest) else none
    | '"' :: rest =>
      (match parseStrChars rest with
       | none => none
       | some (kcs, r1) =>
         match r1.dropWhile isJsonWs with
         | ':' :: r3 =>
           (match parseVal fuel r3 with
            | none => none
            | some (v, r4) =>
              let acc2 := objUpsert acc (String.mk kcs) v
              match r4.dropWhile isJsonWs with
              | ',' :: r6 => parseObjRest fuel (r6.dropWhile isJsonWs) acc2 false
              | '}' :: r6 => some (Json.obj acc2, r6)
              | _ => none)
         | _ => none)
    | _ => none

def parseArrRest : Nat → List Char → List Json → Bool → Option (Json × List Char)
  | 0, _, _, _ => none
  | fuel + 1, l, acc, first =>
    match l with
    | ']' :: rest => if first then some (Json.arr acc, rest) else none
    | _ =>
      match parseVal fuel l with
      | none => none
      | some (v, r) =>
        match r.dropWhile isJsonWs with
        | ',' :: r2 => parseArrRest fuel (r2.dropWhile isJsonWs) (acc ++ [v]) false
        | ']' :: r2 => some (Json.arr (acc ++ [v]), r2)
        | _ => none

end

/-- `json.loads` over a character list: one top-level value, surrounding
whitespace allowed, no trailing data.  The fuel bound exceeds the number of
characters, and every recursion step consumes at least one character. -/
def jsonLoadsChars (l : List Char) : Option Json :=
  match parseVal (l.length + 1) l with
  | some (v, r) => if (r.dropWhile isJsonWs).isEmpty then some v else none
  | none => none

def pyJsonLoads (s : String) : Option Json := jsonLoadsChars s.toList

/-! ## `gemini_handler._clean_and_parse_json` (lines 36-57)

```python
match = re.search(r'```json\s*(\{.*\})\s*```', raw_text, re.DOTALL)
json_text = match.group(1) if match else raw_text
try: return json.loads(json_text)
except json.JSONDecodeError:
    start = json_text.find('{'); end = json_text.rfind('}')
    if start != -1 and end != -1:
        try: return json.loads(json_text[start:end+1])
        except json.JSONDecodeError: return None
    return None
```

The regex search is modelled directly: the match starts at the earliest
position where the whole pattern can match, and the greedy group runs from
the `{` after the fence to the last `}` that is followed by optional
whitespace and a closing fence. -/

def backtick : Char := Char.ofNat 96

/-- `\s` of the pattern (ASCII part; the inputs contain no Unicode spaces). -/
def isPyRegexWs (c : Char) : Bool := [32, 9, 10, 13, 11, 12].contains c.toNat

def fenceOpen : List Char := [backtick, backtick, backtick, 'j', 's', 'o', 'n']

def fenceClose : List Char := [backtick, backtick, backtick]

/-- Largest index `≤ n` satisfying `p`. -/
def findGreatest (p : Nat → Bool) : Nat → Option Nat
  | 0 => if p 0 then some 0 else none
  | n + 1 => if p (n + 1) then some (n + 1) else findGreatest p n

/-- Position `j` closes the greedy group `(\{.*\})`: it holds `}` and is
followed by `\s*` and a closing triple fence. -/
def groupEndCond (r2 : List Char) (j : Nat) : Bool :=
  r2.getD j ' ' == '}'
    && fenceClose.isPrefixOf ((r2.drop (j + 1)).dropWhile isPyRegexWs)

def greedyGroupEnd (r2 : List Char) : Option Nat :=
  match r2.length with
  | 0 => none
  | n + 1 => findGreatest (groupEndCond r2) n

/-- Attempt the fence pattern at the start of `l`; returns the group.  After
the literal fence and optional whitespace the next character must be `{`
(`headD ' '` is `'{'` exactly when the remainder is non-empty and starts
with a brace). -/
def matchFenceAt (l : List Char) : Option (List Char) :=
  if fenceOpen.isPrefixOf l then
    let r2 := (l.drop 7).dropWhile isPyRegexWs
    if r2.headD ' ' == '{' then
      match greedyGroupEnd r2 with
      | some j => some (r2.take (j + 1))
      | none => none
    else none
  else none

/-- `re.search`: try every start position left to right. -/
def fenceSearch : List Char → Option (List Char)
  | [] => matchFenceAt []
  | c :: t =>
    match matchFenceAt (c :: t) with
    | some g => some g
    | none => fenceSearch t

/-- `str.find('{')`. -/
def firstBraceIdx (l : List Char) : Option Nat := l.findIdx? (fun c => c == '{')

/-- `str.rfind('}')`. -/
def lastBraceIdx (l : List Char) : Option Nat :=
  match l.reverse.findIdx? (fun c => c == '}') with
  | some k => some (l.length - 1 - k)
  | none => none

def clean_and_parse_json (raw : String) : Option Json :=
  let json_text : List Char :=
    match fenceSearch raw.toList with
    | some g => g
    | none => raw.toList
  match jsonLoadsChars json_text with
  | some v => some v
  | none =>
    match firstBraceIdx json_text, lastBraceIdx json_text with
    | some s, some e => jsonLoadsChars ((json_text.drop s).take (e + 1 - s))
    | _, _ => none

/-! ## Python value semantics used by the handlers -/

/-- Python truthiness of a decoded JSON value. -/
def pyTruthy : Json → Bool
  | .null => false
  | .jbool b => b
  | .num n => !(n == 0)
  | .fnum m _ => !(m == 0)
  | .str s => !(s == "")
  | .arr xs => !xs.isEmpty
  | .obj kvs => !kvs.isEmpty

def objHasKey (kvs : List (String × Json)) (k : String) : Bool :=
  kvs.any (fun kv => kv.1 == k)

/-- `dict.get(k)` (without default). -/
def objLookup (kvs : List (String × Json)) (k : String) : Option Json :=
  (kvs.find? (fun kv => kv.1 == k)).map (fun kv => kv.2)

def strContainsSub (hay needle : String) : Bool :=
  (List.range (hay.toList.length + 1)).any
    (fun i => needle.toList.isPrefixOf (hay.toList.drop i))

/-- Python `str(x)` for decoded JSON scalars.  Containers and floats are
rendered approximately (Python would use `repr`); no theorem below depends
on those branches — only string scalars flow through `str()` in the claims'
scenarios. -/
def pyStr : Json → String
  | .str s => s
  | .num n => toString n
  | .jbool true => "True"
  | .jbool false => "False"
  | .null => "None"
  | .fnum m e => toString m ++ "e" ++ toString e
  | .arr _ => "[...]"
  | .obj _ => "dict"

/-- `k in x` for a Python value `x`; `none` models the `TypeError` raised on
non-container values, which the surrounding `except Exception` turns into a
generic error. -/
def pyContains (j : Json) (k : String) : Option Bool :=
  match j with
  | .obj kvs => some (objHasKey kvs k)
  | .arr xs => some (xs.any (fun x => match x with | .str s => s == k | _ => false))
  | .str s => some (strContainsSub s k)
  | _ => none

def isJsonList : Json → Bool
  | .arr _ => true
  | _ => false

/-! ## `gemini_handler.generate_modified_question` post-processing
(lines 153-166)

```python
parsed_json = _clean_and_parse_json(response.text)
if not parsed_json: return {"error": "... 유효한 JSON ..."}
if not all(k in parsed_json for k in ['question', 'options', 'answer']):
    return {"error": "... 필수 필드 ... 누락 ..."}
if not isinstance(parsed_json.get('answer'), list):
    parsed_json['answer'] = [str(parsed_json.get('answer'))]
return parsed_json
```
-/

inductive MQResult where
  | ok (q : Json)
  | parseFailed
  | missingFields
  | runtimeError

def processParsedModified (p : Option Json) : MQResult :=
  match p with
  | none => .parseFailed
  | some v =>
    if !(pyTruthy v) then .parseFailed
    else
      match pyContains v "question", pyContains v "options", pyContains v "answer" with
      | some b1, some b2, some b3 =>
        if b1 && b2 && b3 then
          match v with
          | .obj kvs =>
            let a := (objLookup kvs "answer").getD Json.null
            if isJsonList a then .ok (.obj kvs)
            else .ok (.obj (objUpsert kvs "answer" (.arr [.str (pyStr a)])))
          | _ => .runtimeError
        else .missingFields
      | _, _, _ => .runtimeError

def generate_modified_post (txt : String) : MQResult :=
  processParsedModified (clean_and_parse_json txt)

/-! ## `gemini_handler.generate_explanation` post-processing (lines 95-100)

```python
parsed_json = _clean_and_parse_json(response.text)
if parsed_json: return parsed_json
return {"error": "... 유효한 JSON을 파싱하지 못했습니다 ..."}
```
No field check happens here; consumers read the three fields with
`.get(..., 'N/A')` defaults. -/

inductive ExpResult where
  | ok (j : Json)
  | malformed

def processParsedExplanation (p : Option Json) : ExpResult :=
  match p with
  | some v => if pyTruthy v then .ok v else .malformed
  | none => .malformed

def generate_explanation_post (txt : String) : ExpResult :=
  processParsedExplanation (clean_and_parse_json txt)

/-! ## `gemini_handler.analyze_difficulty` (lines 175-210)

```python
difficulty = response.text.strip()
if difficulty not in ['쉬움', '보통', '어려움']: return '보통'
return difficulty
```
with `except Exception: return '보통'`.  The upstream call outcome is the
`Except` argument (`error` models any raised exception). -/

/-- `str.strip()` whitespace (ASCII part; Python also strips Unicode
whitespace, which these responses do not contain). -/
def isPyStripWs (c : Char) : Bool := [32, 9, 10, 13, 11, 12].contains c.toNat

def pyStrip (s : String) : String :=
  String.mk (((s.toList.dropWhile isPyStripWs).reverse.dropWhile isPyStripWs).reverse)

def difficultyTokens : List String := ["쉬움", "보통", "어려움"]

def analyze_difficulty (resp : Except Unit String) : String :=
  match resp with
  | .error _ => "보통"
  | .ok t =>
    let difficulty := pyStrip t
    if difficultyTokens.contains difficulty then difficulty else "보통"

/-! ## Structure of a fenced-group match (for C5) -/

theorem findGreatest_spec {p : Nat → Bool} :
    ∀ {n j : Nat}, findGreatest p n = some j → p j = true ∧ j ≤ n := by
  intro n
  induction n with
  | zero =>
    intro j h
    by_cases hp : p 0 = true
    · simp [findGreatest, hp] at h
      exact ⟨h ▸ hp, h ▸ Nat.le_refl 0⟩
    · simp [findGreatest, hp] at h
  | succ n ih =>
    intro j h
    by_cases hp : p (n + 1) = true
    · simp [findGreatest, hp] at h
      exact ⟨h ▸ hp, h ▸ Nat.le_refl (n + 1)⟩
    · simp [findGreatest, hp] at h
      obtain ⟨h1, h2⟩ := ih h
      exact ⟨h1, Nat.le_succ_of_le h2⟩

theorem greedyGroupEnd_spec {r2 : List Char} {j : Nat}
    (h : greedyGroupEnd r2 = some j) :
    groupEndCond r2 j = true ∧ j < r2.length := by
  unfold greedyGroupEnd at h
  cases hl : r2.length with
  | zero => rw [hl] at h; exact absurd h (by simp)
  | succ n =>
    rw [hl] at h
    obtain ⟨h1, h2⟩ := findGreatest_spec h
    exact ⟨h1, by omega⟩

theorem matchFenceAt_some {l g : List Char} (h : matchFenceAt l = some g) :
    ∃ j, ((l.drop 7).dropWhile isPyRegexWs).headD ' ' = '{'
      ∧ greedyGroupEnd ((l.drop 7).dropWhile isPyRegexWs) = some j
      ∧ j < ((l.drop 7).dropWhile isPyRegexWs).length
      ∧ g = ((l.drop 7).dropWhile isPyRegexWs).take (j + 1) := by
  unfold matchFenceAt at h
  by_cases hpre : fenceOpen.isPrefixOf l
  · rw [if_pos hpre] at h
    by_cases hc : ((l.drop 7).dropWhile isPyRegexWs).headD ' ' == '{'
    · rw [if_pos hc] at h
      cases hge : greedyGroupEnd ((l.drop 7).dropWhile isPyRegexWs) with
      | none => rw [hge] at h; exact absurd h (by simp)
      | some j =>
        rw [hge] at h
        refine ⟨j, ?_, rfl, (greedyGroupEnd_spec hge).2, ?_⟩
        · simpa using hc
        · simpa using h.symm
    · rw [if_neg hc] at h
      exact absurd h (by simp)
  · rw [if_neg hpre] at h
    exact absurd h (by simp)

theorem fenceSearch_some {l g : List Char} (h : fenceSearch l = some g) :
    ∃ l2 : List Char, matchFenceAt l2 = some g := by
  induction l with
  | nil => exact ⟨[], h⟩
  | cons c t ih =>
    unfold fenceSearch at h
    cases hm : matchFenceAt (c :: t) with
    | some g2 =>
      rw [hm] at h
      simp only [] at h
      exact ⟨c :: t, by rw [hm, h]⟩
    | none =>
      rw [hm] at h
      simp only [] at h
      exact ih h

/-- The group produced by a fence match starts with `{` and ends with `}`,
so its own first-`{`-to-last-`}` substring is the whole group. -/
theorem fence_group_braces {l g : List Char} (h : fenceSearch l = some g) :
    g ≠ [] ∧ firstBraceIdx g = some 0 ∧ lastBraceIdx g = some (g.length - 1) := by
  obtain ⟨l2, hm⟩ := fenceSearch_some h
  obtain ⟨j, hhead, hge, hlt, hg⟩ := matchFenceAt_some hm
  generalize hr2eq : (l2.drop 7).dropWhile isPyRegexWs = r2 at hhead hge hlt hg
  have hlen : g.length = j + 1 := by
    rw [hg, List.length_take]
    omega
  have hgne : g ≠ [] := by
    intro hnil
    rw [hnil] at hlen
    exact absurd hlen.symm (by simp)
  have hr20 : r2[0]? = some '{' := by
    cases hx : r2 with
    | nil => rw [hx] at hlt; simp at hlt
    | cons a t =>
      rw [hx] at hhead
      simp only [List.headD_cons] at hhead
      simp [hhead]
  have hg0 : g[0]? = some '{' := by
    rw [hg, List.getElem?_take, if_pos (by omega)]
    exact hr20
  have hr2j : r2[j]? = some '}' := by
    have hcond := (greedyGroupEnd_spec hge).1
    rw [groupEndCond, Bool.and_eq_true] at hcond
    have hgd : r2.getD j ' ' = '}' := by simpa using hcond.1
    rw [List.getD_eq_getElem?_getD] at hgd
    cases hx : r2[j]? with
    | none =>
      rw [List.getElem?_eq_none_iff] at hx
      omega
    | some c =>
      rw [hx] at hgd
      simp only [Option.getD_some] at hgd
      rw [hgd]
  have hgj : g[j]? = some '}' := by
    rw [hg, List.getElem?_take, if_pos (by omega)]
    exact hr2j
  refine ⟨hgne, ?_, ?_⟩
  · cases hx : g with
    | nil => exact absurd hx hgne
    | cons a t =>
      rw [hx] at hg0
      rw [List.getElem?_cons_zero] at hg0
      have ha : a = '{' := by simpa using hg0
      simp [firstBraceIdx, List.findIdx?_cons, ha]
  · have hlast : g.getLast? = some '}' := by
      rw [List.getLast?_eq_getElem?, hlen]
      simpa using hgj
    have hrev : g.reverse.head? = some '}' := by
      rw [List.head?_reverse]
      exact hlast
    unfold lastBraceIdx
    cases hx : g.reverse with
    | nil =>
      rw [hx] at hrev
      simp at hrev
    | cons a t =>
      rw [hx] at hrev
      have ha : a = '}' := by simpa using hrev
      simp [List.findIdx?_cons, ha]

/-! ## C5: two-tier JSON extraction -/

/-- Counterexample to C5 as stated: the input `"123"` contains no brace at
all (and no fenced block), yet extraction returns the value `123` instead of
failing, because the code first runs `json.loads` on the whole raw text. -/
theorem extraction_braceless_json_counterexample :
    firstBraceIdx "123".toList = none
    ∧ fenceSearch "123".toList = none
    ∧ clean_and_parse_json "123" = some (Json.num 123) :=
  ⟨rfl, rfl, rfl⟩

/-- Claim C5 (amended): extraction first searches for a fenced ```json
block; when one is found the result is exactly the parse of its group (the
fallback substring of a group coincides with the whole group).  With no
fence, the whole raw text is parsed first; only if that fails does
extraction parse the first-`{`-to-last-`}` substring, and it fails when no
such substring exists — so brace-free text fails exactly when the text is
not itself valid JSON.  The spec's three concrete examples are included. -/
theorem json_extraction_two_tier :
    (∀ (raw : String) (g : List Char), fenceSearch raw.toList = some g →
        clean_and_parse_json raw = jsonLoadsChars g)
    ∧ (∀ (raw : String) (v : Json), fenceSearch raw.toList = none →
        jsonLoadsChars raw.toList = some v → clean_and_parse_json raw = some v)
    ∧ (∀ (raw : String) (s e : Nat), fenceSearch raw.toList = none →
        jsonLoadsChars raw.toList = none → firstBraceIdx raw.toList = some s →
        lastBraceIdx raw.toList = some e →
        clean_and_parse_json raw = jsonLoadsChars ((raw.toList.drop s).take (e + 1 - s)))
    ∧ (∀ raw : String, fenceSearch raw.toList = none →
        jsonLoadsChars raw.toList = none →
        (firstBraceIdx raw.toList = none ∨ lastBraceIdx raw.toList = none) →
        clean_and_parse_json raw = none)
    ∧ clean_and_parse_json "```json\n\x7b\"a\":1\x7d\n```"
        = some (Json.obj [("a", Json.num 1)])
    ∧ clean_and_parse_json "noise \x7b\"a\":1\x7d trailing"
        = some (Json.obj [("a", Json.num 1)])
    ∧ clean_and_parse_json "no braces at all" = none := by
  refine ⟨?_, ?_, ?_, ?_, rfl, rfl, rfl⟩
  · intro raw g hf
    have hf2 : fenceSearch raw.data = some g := hf
    unfold clean_and_parse_json
    cases hl : jsonLoadsChars g with
    | some v => simp [hf2, hl]
    | none =>
      obtain ⟨hne, hfst, hlst⟩ := fence_group_braces hf
      simp only [hf, hf2, hl, hfst, hlst]
      have hlen : g.length - 1 + 1 = g.length :=
        Nat.succ_pred_eq_of_pos (List.length_pos.mpr hne)
      rw [List.drop_zero, Nat.sub_zero, hlen, List.take_length]
      exact hl
  · intro raw v hf hl
    have hf2 : fenceSearch raw.data = none := hf
    have hl2 : jsonLoadsChars raw.data = some v := hl
    simp [clean_and_parse_json, hf2, hl2]
  · intro raw s e hf hl hfst hlst
    have hf2 : fenceSearch raw.data = none := hf
    have hl2 : jsonLoadsChars raw.data = none := hl
    have hfst2 : firstBraceIdx raw.data = some s := hfst
    have hlst2 : lastBraceIdx raw.data = some e := hlst
    simp [clean_and_parse_json, hf2, hl2, hfst2, hlst2]
  · intro raw hf hl hor
    have hf2 : fenceSearch raw.data = none := hf
    have hl2 : jsonLoadsChars raw.data = none := hl
    rcases hor with hfb | hlb
    · have hfb2 : firstBraceIdx raw.data = none := hfb
      simp [clean_and_parse_json, hf2, hl2, hfb2]
    · have hlb2 : lastBraceIdx raw.data = none := hlb
      cases hfb : firstBraceIdx raw.data with
      | none => simp [clean_and_parse_json, hf2, hl2, hfb]
      | some s => simp [clean_and_parse_json, hf2, hl2, hfb, hlb2]

/-- Witness for the amended C5: brace-free non-JSON text fails. -/
theorem json_extraction_two_tier_witness :
    clean_and_parse_json "hello" = none :=
  json_extraction_two_tier.2.2.2.1 "hello" rfl rfl (Or.inl rfl)

/-! ## C7: variant-generation required fields and answer coercion -/

/-- Counterexample to C7 as stated: the response `"{}"` parses successfully
to the empty object, which is missing all three required keys, but the
operation reports the malformed-JSON error (`if not parsed_json`), not the
incomplete-generated-question error. -/
theorem variant_empty_object_error_counterexample :
    clean_and_parse_json "\x7b\x7d" = some (Json.obj [])
    ∧ generate_modified_post "\x7b\x7d" = MQResult.parseFailed :=
  ⟨rfl, rfl⟩

/-- Claim C7 (amended): for a successfully parsed **non-empty** object,
missing any of `question`/`options`/`answer` yields the
incomplete-generated-question error; with all three present, a list-valued
`answer` passes through unchanged and a non-list `answer` is coerced to the
one-element list of its string form, and the operation succeeds.  (A parsed
falsy value — in particular the empty object — is reported as malformed
JSON instead.) -/
theorem variant_required_fields_and_answer_coercion
    (kvs : List (String × Json)) (hne : kvs ≠ []) :
    ((objHasKey kvs "question" && objHasKey kvs "options"
        && objHasKey kvs "answer") = false →
      processParsedModified (some (Json.obj kvs)) = MQResult.missingFields)
    ∧ ((objHasKey kvs "question" && objHasKey kvs "options"
        && objHasKey kvs "answer") = true →
      isJsonList ((objLookup kvs "answer").getD Json.null) = true →
      processParsedModified (some (Json.obj kvs)) = MQResult.ok (Json.obj kvs))
    ∧ ((objHasKey kvs "question" && objHasKey kvs "options"
        && objHasKey kvs "answer") = true →
      isJsonList ((objLookup kvs "answer").getD Json.null) = false →
      processParsedModified (some (Json.obj kvs))
        = MQResult.ok (Json.obj (objUpsert kvs "answer"
            (Json.arr [Json.str (pyStr ((objLookup kvs "answer").getD Json.null))])))) := by
  have htr : (!(pyTruthy (Json.obj kvs))) = false := by
    cases kvs with
    | nil => exact absurd rfl hne
    | cons a t => rfl
  refine ⟨?_, ?_, ?_⟩
  · intro hkeys
    simp [processParsedModified, pyContains, htr, hkeys]
  · intro hkeys hlist
    simp [processParsedModified, pyContains, htr, hkeys, hlist]
  · intro hkeys hlist
    simp [processParsedModified, pyContains, htr, hkeys, hlist]

/-- Witness for the amended C7: a scalar `answer` is coerced into a
one-element list and the operation succeeds. -/
theorem variant_required_fields_and_answer_coercion_witness :
    processParsedModified (some (Json.obj
        [("question", Json.str "q"), ("options", Json.obj [("A", Json.str "x")]),
         ("answer", Json.str "B")]))
      = MQResult.ok (Json.obj
        [("question", Json.str "q"), ("options", Json.obj [("A", Json.str "x")]),
         ("answer", Json.arr [Json.str "B"])]) :=
  (variant_required_fields_and_answer_coercion _ (List.cons_ne_nil _ _)).2.2 rfl rfl

/-! ## C8: difficulty classification fallback -/

/-- Counterexample to C8 as stated: the raw output `"쉬움\n"` is not exactly
equal to any difficulty token (so the claim maps it to the default), yet the
code strips whitespace first and returns `쉬움`, not `보통`. -/
theorem difficulty_whitespace_counterexample :
    analyze_difficulty (Except.ok "쉬움\n") = "쉬움"
    ∧ difficultyTokens.contains "쉬움\n" = false
    ∧ "쉬움" ≠ "보통" :=
  ⟨rfl, rfl, by decide⟩

/-- Claim C8 (amended): the comparison happens after stripping
leading/trailing whitespace; any stripped output not exactly equal
(case-sensitively) to one of the three tokens — extra words, wrong casing,
empty — is silently mapped to the default `보통` (medium), a matching
stripped output is returned as-is, and any upstream exception also yields
`보통`. -/
theorem difficulty_strip_then_exact_match :
    (∀ t : String, difficultyTokens.contains (pyStrip t) = false →
      analyze_difficulty (Except.ok t) = "보통")
    ∧ (∀ t : String, difficultyTokens.contains (pyStrip t) = true →
      analyze_difficulty (Except.ok t) = pyStrip t)
    ∧ (∀ e : Unit, analyze_difficulty (Except.error e) = "보통") := by
  refine ⟨?_, ?_, ?_⟩
  · intro t h
    have h2 : pyStrip t ∉ difficultyTokens := by simpa using h
    simp [analyze_difficulty, h2]
  · intro t h
    have h2 : pyStrip t ∈ difficultyTokens := by simpa using h
    simp [analyze_difficulty, h2]
  · intro e
    rfl

/-- Witness for the amended C8: an answer with extra words is coerced to the
default `보통`. -/
theorem difficulty_strip_then_exact_match_witness :
    analyze_difficulty (Except.ok "So Easy") = "보통" :=
  difficulty_strip_then_exact_match.1 "So Easy" rfl

/-! ## C9: explanation generation does not validate fields -/

/-- Counterexample to C9 as stated: a parsed response holding only
`analogy` — `visualization` and the core-concepts summary absent — is
returned as a success, not as a malformed-response failure. -/
theorem explanation_missing_fields_counterexample :
    generate_explanation_post "\x7b\"analogy\": \"a\"\x7d"
      = ExpResult.ok (Json.obj [("analogy", Json.str "a")])
    ∧ objLookup [("analogy", Json.str "a")] "visualization" = none
    ∧ objLookup [("analogy", Json.str "a")] "core_concepts" = none :=
  ⟨rfl, rfl, rfl⟩

/-- Claim C9 (amended): explanation generation fails with the
malformed-AI-response error exactly when the response does not parse to a
truthy JSON value; the three fields are not validated at generation time
(consumers render absent fields with `N/A` defaults), and any truthy parsed
value is returned unchanged. -/
theorem explanation_malformed_iff_parse_untruthy :
    (∀ txt : String, generate_explanation_post txt = ExpResult.malformed ↔
      ((clean_and_parse_json txt).map pyTruthy).getD false = false)
    ∧ (∀ (txt : String) (v : Json), clean_and_parse_json txt = some v →
        pyTruthy v = true → generate_explanation_post txt = ExpResult.ok v) := by
  constructor
  · intro txt
    unfold generate_explanation_post processParsedExplanation
    cases hc : clean_and_parse_json txt with
    | none => simp
    | some v =>
      cases hv : pyTruthy v with
      | false => simp [hv]
      | true => simp [hv]
  · intro txt v hc hv
    unfold generate_explanation_post processParsedExplanation
    rw [hc]
    simp [hv]

/-- Witness for the amended C9: unparseable text yields the malformed
failure. -/
theorem explanation_malformed_iff_parse_untruthy_witness :
    generate_explanation_post "nope" = ExpResult.malformed :=
  (explanation_malformed_iff_parse_untruthy.1 "nope").mpr rfl

end OcpTutor
